import Mathlib

/-!
# Verification of the ACPI SDT-header core (src/acpi/src/sdt.rs)

A shallow embedding of the SDT header module of the `acpi` crate:
the `Signature` type and its derived (byte-wise lexicographic) ordering,
the `SdtHeader` record with its `validate` routine (signature check,
UTF-8 checks of the OEM fields, 8-bit wrapping checksum over `length`
bytes), the revision-gated `ExtendedField` accessor, and the
`peek_at_sdt_header` bootstrap routine.

Machine integers are modelled as `Nat` with explicit `% 256` where u8
wraparound matters; raw memory is a function `Nat → Nat` whose reads are
reduced mod 256. Fallible operations (`str::from_utf8(..).unwrap()`,
`validate`) return `Option`/`Except`; `none` models a panic.
-/

set_option autoImplicit false

/-- The 4-byte table signature (`struct Signature([u8; 4])`). Each field is
one raw byte. -/
structure Signature where
  b0 : Nat
  b1 : Nat
  b2 : Nat
  b3 : Nat
deriving DecidableEq, Repr

/-- The four bytes of a signature, in order. -/
def Signature.bytes (s : Signature) : List Nat :=
  [s.b0, s.b1, s.b2, s.b3]

def Signature.RSDT : Signature := ⟨82, 83, 68, 84⟩

def Signature.XSDT : Signature := ⟨88, 83, 68, 84⟩

/-- `FADT` is built from the bytes of the string `"FACP"`. -/
def Signature.FADT : Signature := ⟨70, 65, 67, 80⟩

def Signature.HPET : Signature := ⟨72, 80, 69, 84⟩

/-- `MADT` is built from the bytes of the string `"APIC"`. -/
def Signature.MADT : Signature := ⟨65, 80, 73, 67⟩

def Signature.MCFG : Signature := ⟨77, 67, 70, 71⟩

def Signature.SSDT : Signature := ⟨83, 83, 68, 84⟩

/-- The comparison produced by Rust's `#[derive(PartialOrd, Ord)]` on a
struct wrapping `[u8; 4]`: compare the array elements in order, first
difference wins. -/
def Signature.cmp (a b : Signature) : Ordering :=
  (compare a.b0 b.b0).then
    ((compare a.b1 b.b1).then
      ((compare a.b2 b.b2).then (compare a.b3 b.b3)))

/-- Byte-wise lexicographic comparison of byte lists, stated from the
spec's words ("total order = byte-wise lexicographic comparison"), to be
compared against the derived `Signature.cmp`. -/
def lexCompareBytes : List Nat → List Nat → Ordering
  | [], [] => .eq
  | [], _ :: _ => .lt
  | _ :: _, [] => .gt
  | a :: as, b :: bs => (compare a b).then (lexCompareBytes as bs)

/-- Is `b` a UTF-8 continuation byte (`0x80..=0xBF`)? -/
def contByte (b : Nat) : Bool :=
  128 ≤ b && b ≤ 191

/-- UTF-8 validity of a byte sequence, as checked by Rust's
`str::from_utf8`: ASCII is one byte; `0xC2..=0xDF` start 2-byte
sequences; `0xE0..=0xEF` start 3-byte sequences (with the overlong and
surrogate exclusions on the second byte for `0xE0` and `0xED`);
`0xF0..=0xF4` start 4-byte sequences (with the range exclusions for
`0xF0` and `0xF4`); everything else is invalid. -/
def validUtf8 : List Nat → Bool
  | [] => true
  | b0 :: tail =>
    if b0 ≤ 127 then validUtf8 tail
    else if b0 < 194 then false
    else if b0 ≤ 223 then
      match tail with
      | b1 :: tail2 => contByte b1 && validUtf8 tail2
      | [] => false
    else if b0 ≤ 239 then
      match tail with
      | b1 :: b2 :: tail3 =>
        (if b0 = 224 then decide (160 ≤ b1) && decide (b1 ≤ 191)
         else if b0 = 237 then decide (128 ≤ b1) && decide (b1 ≤ 159)
         else contByte b1) && contByte b2 && validUtf8 tail3
      | _ => false
    else if b0 ≤ 244 then
      match tail with
      | b1 :: b2 :: b3 :: tail4 =>
        (if b0 = 240 then decide (144 ≤ b1) && decide (b1 ≤ 191)
         else if b0 = 244 then decide (128 ≤ b1) && decide (b1 ≤ 143)
         else contByte b1) && contByte b2 && contByte b3 && validUtf8 tail4
      | _ => false
    else false

/-- The common SDT header (`#[repr(C, packed)] struct SdtHeader`).
`oem_id` holds the 6 `oem_id` bytes and `oem_table_id` the 8
`oem_table_id` bytes; the numeric fields are u8/u32 values. -/
structure SdtHeader where
  signature : Signature
  length : Nat
  revision : Nat
  checksum : Nat
  oem_id : List Nat
  oem_table_id : List Nat
  oem_revision : Nat
  creator_id : Nat
  creator_revision : Nat
deriving DecidableEq, Repr

/-- The four little-endian bytes of a 32-bit value. -/
def le32 (n : Nat) : List Nat :=
  [n % 256, n / 256 % 256, n / 65536 % 256, n / 16777216 % 256]

/-- The 36 bytes of the packed header layout (`#[repr(C, packed)]`, no
padding): signature at offset 0, length (LE) at 4, revision at 8,
checksum at 9, oem_id at 10, oem_table_id at 16, oem_revision (LE) at
24, creator_id at 28, creator_revision at 32. Stored values are reduced
mod 256 as u8 memory holds them. -/
def SdtHeader.bytes (h : SdtHeader) : List Nat :=
  [h.signature.b0 % 256, h.signature.b1 % 256, h.signature.b2 % 256, h.signature.b3 % 256]
    ++ le32 h.length
    ++ [h.revision % 256, h.checksum % 256]
    ++ h.oem_id.map (· % 256)
    ++ h.oem_table_id.map (· % 256)
    ++ le32 h.oem_revision
    ++ le32 h.creator_id
    ++ le32 h.creator_revision

/-- The byte `validate` reads at offset `i` from `self`: a header byte
for `i < 36`, otherwise the table body byte `rest (i - 36)` (the memory
mapped after the header). -/
def SdtHeader.byteAt (h : SdtHeader) (rest : Nat → Nat) (i : Nat) : Nat :=
  if i < 36 then h.bytes.getD i 0 else rest (i - 36) % 256

/-- The checksum loop of `validate`: `sum` starts at 0 and each of the
first `length` bytes is added with `u8::wrapping_add`. -/
def checksumSum (h : SdtHeader) (rest : Nat → Nat) : Nat :=
  (List.range h.length).foldl (fun s i => (s + h.byteAt rest i) % 256) 0

/-- The error type, restricted to the variants `validate` constructs;
each carries the expected signature passed by the caller. -/
inductive AcpiError where
  | SdtInvalidSignature (s : Signature)
  | SdtInvalidOemId (s : Signature)
  | SdtInvalidTableId (s : Signature)
  | SdtInvalidChecksum (s : Signature)
deriving DecidableEq, Repr

instance : DecidableEq (Except AcpiError Unit) := fun a b =>
  match a, b with
  | .ok x, .ok y => .isTrue (by cases x; cases y; rfl)
  | .ok _, .error _ => .isFalse (by simp)
  | .error _, .ok _ => .isFalse (by simp)
  | .error e, .error f => if h : e = f then .isTrue (by rw [h]) else .isFalse (by simp [h])

/-- `SdtHeader::validate`: check the signature, then that `oem_id` and
`oem_table_id` are valid UTF-8, then that the wrapping 8-bit sum of the
first `length` bytes of the table is zero; the first failing check's
error is returned. -/
def SdtHeader.validate (h : SdtHeader) (rest : Nat → Nat) (signature : Signature) :
    Except AcpiError Unit :=
  if h.signature ≠ signature then .error (.SdtInvalidSignature signature)
  else if validUtf8 h.oem_id = false then .error (.SdtInvalidOemId signature)
  else if validUtf8 h.oem_table_id = false then .error (.SdtInvalidTableId signature)
  else if 0 < checksumSum h rest then .error (.SdtInvalidChecksum signature)
  else .ok ()

/-- `SdtHeader::oem_id`: `str::from_utf8(&self.oem_id).unwrap()`; `none`
models the panic of `unwrap` on invalid UTF-8. -/
def SdtHeader.oem_id_text (h : SdtHeader) : Option (List Nat) :=
  if validUtf8 h.oem_id then some h.oem_id else none

/-- `SdtHeader::oem_table_id`: `str::from_utf8(&self.oem_table_id).unwrap()`;
`none` models the panic of `unwrap` on invalid UTF-8. -/
def SdtHeader.oem_table_id_text (h : SdtHeader) : Option (List Nat) :=
  if validUtf8 h.oem_table_id then some h.oem_table_id else none

/-- `Signature::as_str`: `str::from_utf8(&self.0).unwrap()`; `none`
models the panic of `unwrap` on invalid UTF-8, and the returned text is
exactly the 4 stored bytes. -/
def Signature.as_str (s : Signature) : Option (List Nat) :=
  if validUtf8 s.bytes then some s.bytes else none

/-- `ExtendedField<T, MIN_REVISION>`: a field slot whose stored bytes
(`MaybeUninit<T>`) are modelled by the value they hold when initialised;
`access` under its safety contract returns exactly this value. -/
structure ExtendedField (α : Type) (MIN_REVISION : Nat) where
  val : α

/-- `ExtendedField::access`: return the stored value when
`revision >= MIN_REVISION`, `None` otherwise. -/
def ExtendedField.access {α : Type} {MIN_REVISION : Nat}
    (f : ExtendedField α MIN_REVISION) (revision : Nat) : Option α :=
  if MIN_REVISION ≤ revision then some f.val else none

/-- Modelled from the spec: the events the external mapping capability
(`AcpiHandler`, not part of src/) records — mapping `size` bytes at
`addr`, and releasing such a mapping. -/
inductive MapEvent where
  | map (addr size : Nat)
  | unmap (addr size : Nat)
deriving DecidableEq, Repr

/-- Modelled from the spec: the state of the external mapping capability
used as a recording test double — the physical memory it exposes (a u8
at every address, reads reduced mod 256), the currently active mappings
as (address, size) pairs, and the recorded event trace. -/
structure HandlerState where
  mem : Nat → Nat
  activeMappings : List (Nat × Nat)
  trace : List MapEvent

/-- Modelled from the spec: `AcpiHandler::map_physical_region` — map
`size` bytes of physical memory at `addr`, recording the event. -/
def map_physical_region (s : HandlerState) (addr size : Nat) : HandlerState :=
  { s with
    activeMappings := (addr, size) :: s.activeMappings
    trace := s.trace ++ [.map addr size] }

/-- Modelled from the spec: releasing a scoped mapping (the drop of the
mapping handle) — the mapping is removed from the active set and the
release is recorded. -/
def unmap_physical_region (s : HandlerState) (addr size : Nat) : HandlerState :=
  { s with
    activeMappings := s.activeMappings.erase (addr, size)
    trace := s.trace ++ [.unmap addr size] }

/-- Reading a 32-bit little-endian value from memory at offset `off`. -/
def readLe32 (mem : Nat → Nat) (off : Nat) : Nat :=
  mem off % 256 + 256 * (mem (off + 1) % 256) + 65536 * (mem (off + 2) % 256)
    + 16777216 * (mem (off + 3) % 256)

/-- Interpreting 36 bytes of memory as an `SdtHeader`, following the
packed layout (the bitwise copy `(*mapping).clone()` performs). -/
def decodeSdtHeader (mem : Nat → Nat) : SdtHeader :=
  { signature := ⟨mem 0 % 256, mem 1 % 256, mem 2 % 256, mem 3 % 256⟩
    length := readLe32 mem 4
    revision := mem 8 % 256
    checksum := mem 9 % 256
    oem_id := (List.range 6).map (fun i => mem (10 + i) % 256)
    oem_table_id := (List.range 8).map (fun i => mem (16 + i) % 256)
    oem_revision := readLe32 mem 24
    creator_id := readLe32 mem 28
    creator_revision := readLe32 mem 32 }

/-- `peek_at_sdt_header`: map `size_of::<SdtHeader>()` = 36 bytes at the
physical address, copy the header by value, and release the mapping (the
handle is dropped before the function returns); returns the copied
header together with the handler state after the call. -/
def peek_at_sdt_header (s : HandlerState) (physical_address : Nat) :
    SdtHeader × HandlerState :=
  let s1 := map_physical_region s physical_address 36
  let header := decodeSdtHeader (fun i => s1.mem (physical_address + i))
  let s2 := unmap_physical_region s1 physical_address 36
  (header, s2)

/-- `validate` as applied to a whole mapped table: the header is the
start of the buffer and the table body follows at offset 36. -/
def validateBuf (t : Nat → Nat) (signature : Signature) : Except AcpiError Unit :=
  (decodeSdtHeader t).validate (fun i => t (36 + i)) signature

/-- The wrapping 8-bit sum of the first `len` bytes of a buffer. -/
def tableSum (t : Nat → Nat) (len : Nat) : Nat :=
  (List.range len).foldl (fun s i => (s + t i % 256) % 256) 0

lemma bytes_decode (t : Nat → Nat) :
    (decodeSdtHeader t).bytes = (List.range 36).map (fun i => t i % 256) := by
  have h36 : List.range 36 =
      [0, 1, 2, 3, 4, 5, 6, 7, 8, 9, 10, 11, 12, 13, 14, 15, 16, 17, 18, 19, 20, 21, 22,
        23, 24, 25, 26, 27, 28, 29, 30, 31, 32, 33, 34, 35] := by decide
  have h6 : List.range 6 = [0, 1, 2, 3, 4, 5] := by decide
  have h8 : List.range 8 = [0, 1, 2, 3, 4, 5, 6, 7] := by decide
  simp only [decodeSdtHeader, SdtHeader.bytes, le32, readLe32, h36, h6, h8, List.map,
    List.cons_append, List.nil_append, List.cons.injEq, and_true]
  norm_num
  omega

lemma validate_eq_ok_iff (h : SdtHeader) (rest : Nat → Nat) (sig : Signature) :
    h.validate rest sig = .ok () ↔
      h.signature = sig ∧ validUtf8 h.oem_id = true ∧ validUtf8 h.oem_table_id = true ∧
        checksumSum h rest = 0 := by
  unfold SdtHeader.validate
  split_ifs <;> simp_all
  omega

lemma validate_eq_checksum_error_iff (h : SdtHeader) (rest : Nat → Nat) (sig : Signature)
    (hs : h.signature = sig) (ho : validUtf8 h.oem_id = true)
    (ht : validUtf8 h.oem_table_id = true) :
    h.validate rest sig = .error (.SdtInvalidChecksum sig) ↔ checksumSum h rest ≠ 0 := by
  unfold SdtHeader.validate
  split_ifs <;> simp_all
  omega

lemma foldl_mod_sum (f : Nat → Nat) (l : List Nat) (a : Nat) :
    l.foldl (fun s i => (s + f i) % 256) (a % 256) = (a + (l.map f).sum) % 256 := by
  induction l generalizing a with
  | nil => simp
  | cons b l ih =>
    simp only [List.foldl_cons, List.map_cons, List.sum_cons]
    rw [Nat.mod_add_mod, ih]
    ring_nf

lemma tableSum_eq_sum (t : Nat → Nat) (len : Nat) :
    tableSum t len = ((List.range len).map (fun i => t i % 256)).sum % 256 := by
  have := foldl_mod_sum (fun i => t i % 256) (List.range len) 0
  simpa [tableSum] using this

lemma checksumSum_eq_sum (h : SdtHeader) (rest : Nat → Nat) :
    checksumSum h rest = ((List.range h.length).map (h.byteAt rest)).sum % 256 := by
  have := foldl_mod_sum (h.byteAt rest) (List.range h.length) 0
  simpa [checksumSum] using this

lemma byteAt_decode (t : Nat → Nat) (i : Nat) :
    (decodeSdtHeader t).byteAt (fun k => t (36 + k)) i = t i % 256 := by
  unfold SdtHeader.byteAt
  split
  · rw [bytes_decode]
    rename_i hi
    rw [List.getD_eq_getElem?_getD, List.getElem?_map, List.getElem?_range hi]
    rfl
  · rename_i hi
    show t (36 + (i - 36)) % 256 = t i % 256
    have h36 : 36 + (i - 36) = i := by omega
    rw [h36]

lemma checksumSum_decode (t : Nat → Nat) :
    checksumSum (decodeSdtHeader t) (fun k => t (36 + k)) =
      tableSum t (decodeSdtHeader t).length := by
  unfold checksumSum tableSum
  exact List.foldl_ext _ _ 0 (fun s i _ => by rw [byteAt_decode])

/-- The byte sum of the first `n` table bytes (before the final mod). -/
def mapSum (t : Nat → Nat) (n : Nat) : Nat :=
  ((List.range n).map (fun i => t i % 256)).sum

lemma mapSum_congr (t u : Nat → Nat) (n : Nat) (h : ∀ i, i < n → t i = u i) :
    mapSum t n = mapSum u n := by
  unfold mapSum
  congr 1
  exact List.map_congr_left (fun i hi => by rw [h i (List.mem_range.mp hi)])

lemma mapSum_update (t : Nat → Nat) (j v n : Nat) (hj : j < n) :
    mapSum (Function.update t j v) n + t j % 256 = mapSum t n + v % 256 := by
  induction n with
  | zero => omega
  | succ n ih =>
    have hr : List.range (n + 1) = List.range n ++ [n] := List.range_succ n
    by_cases hjn : j = n
    · subst hjn
      have heq : mapSum (Function.update t j v) j = mapSum t j :=
        mapSum_congr _ _ j (fun i hi => Function.update_noteq (by omega) v t)
      simp only [mapSum, hr, List.map_append, List.sum_append, List.map_cons, List.sum_cons,
        List.map_nil, List.sum_nil] at *
      rw [Function.update_same]
      omega
    · have hlt : j < n := by omega
      have ihr := ih hlt
      have hn : Function.update t j v n = t n := Function.update_noteq (by omega) v t
      simp only [mapSum, hr, List.map_append, List.sum_append, List.map_cons, List.sum_cons,
        List.map_nil, List.sum_nil] at *
      rw [hn]
      omega

lemma tableSum_eq_mapSum_mod (t : Nat → Nat) (len : Nat) :
    tableSum t len = mapSum t len % 256 := tableSum_eq_sum t len

lemma decode_length_update (t : Nat → Nat) (j v : Nat) (hj : j < 4 ∨ 8 ≤ j) :
    (decodeSdtHeader (Function.update t j v)).length = (decodeSdtHeader t).length := by
  simp only [decodeSdtHeader, readLe32]
  rw [Function.update_noteq (by omega) v t, Function.update_noteq (by omega) v t,
    Function.update_noteq (by omega) v t, Function.update_noteq (by omega) v t]

lemma ordering_then_eq (o : Ordering) : o.then Ordering.eq = o := by
  cases o <;> rfl

lemma validateBuf_eq_ok_iff (t : Nat → Nat) (sig : Signature) :
    validateBuf t sig = .ok () ↔
      (decodeSdtHeader t).signature = sig ∧
        validUtf8 (decodeSdtHeader t).oem_id = true ∧
        validUtf8 (decodeSdtHeader t).oem_table_id = true ∧
        tableSum t (decodeSdtHeader t).length = 0 := by
  unfold validateBuf
  rw [validate_eq_ok_iff, checksumSum_decode]

lemma validateBuf_checksum_error_iff (t : Nat → Nat) (sig : Signature)
    (hs : (decodeSdtHeader t).signature = sig)
    (ho : validUtf8 (decodeSdtHeader t).oem_id = true)
    (ht : validUtf8 (decodeSdtHeader t).oem_table_id = true) :
    validateBuf t sig = .error (.SdtInvalidChecksum sig) ↔
      tableSum t (decodeSdtHeader t).length ≠ 0 := by
  unfold validateBuf
  rw [validate_eq_checksum_error_iff _ _ _ hs ho ht, checksumSum_decode]

/-- A concrete well-formed RSDT table header whose 36-byte table has a
correct checksum. -/
def hdrOk : SdtHeader :=
  { signature := Signature.RSDT
    length := 36
    revision := 1
    checksum := 8
    oem_id := [65, 65, 65, 65, 65, 65]
    oem_table_id := [66, 66, 66, 66, 66, 66, 66, 66]
    oem_revision := 0
    creator_id := 0
    creator_revision := 0 }

/-- `hdrOk` with a checksum byte making the 8-bit sum 1 instead of 0. -/
def hdrBadChk : SdtHeader :=
  { hdrOk with checksum := 9 }

/-- `hdrOk` with non-UTF-8 `oem_id` bytes and the checksum byte adjusted
so the 8-bit sum is again 0. -/
def hdrBadOem : SdtHeader :=
  { hdrOk with oem_id := [255, 255, 255, 255, 255, 255], checksum := 148 }

/-- `hdrOk` with every fault at once: wrong signature, non-text OEM
fields and a bad checksum. -/
def hdrBadAll : SdtHeader :=
  { hdrOk with
    signature := Signature.SSDT
    oem_id := [255, 255, 255, 255, 255, 255]
    oem_table_id := [255, 255, 255, 255, 255, 255, 255, 255]
    checksum := 0 }

/-- `hdrOk` with `length` 0, below `size_of::<SdtHeader>()`. -/
def hdrLen0 : SdtHeader :=
  { hdrOk with length := 0 }

/-- The 36-byte buffer of `hdrOk` as a memory image (reads past it are 0). -/
def tGood : Nat → Nat := fun i => hdrOk.bytes.getD i 0

/-- C1: `validate` checks signature, oem_id, oem_table_id, checksum in
that order: a signature mismatch always yields `InvalidSignature`
whatever the other fields hold, and each later error kind can only be
returned when every earlier check passed. -/
theorem validate_check_order (h : SdtHeader) (rest : Nat → Nat) (sig : Signature) :
    (h.signature ≠ sig → h.validate rest sig = .error (.SdtInvalidSignature sig)) ∧
    (h.validate rest sig = .error (.SdtInvalidSignature sig) → h.signature ≠ sig) ∧
    (h.validate rest sig = .error (.SdtInvalidOemId sig) → h.signature = sig) ∧
    (h.validate rest sig = .error (.SdtInvalidTableId sig) →
      h.signature = sig ∧ validUtf8 h.oem_id = true) ∧
    (h.validate rest sig = .error (.SdtInvalidChecksum sig) →
      h.signature = sig ∧ validUtf8 h.oem_id = true ∧ validUtf8 h.oem_table_id = true) := by
  unfold SdtHeader.validate
  split_ifs <;> simp_all

/-- C1 witness: on a header with a wrong signature, non-text OEM fields
and a bad checksum at once, the error is `InvalidSignature`. -/
theorem validate_check_order_witness :
    hdrBadAll.validate (fun _ => 0) Signature.RSDT =
      .error (.SdtInvalidSignature Signature.RSDT) :=
  (validate_check_order hdrBadAll (fun _ => 0) Signature.RSDT).1 (by decide)

/-- C2 counterexample: `tGood` validates, and flipping exactly one byte
(offset 0, inside the first `length` bytes) changes the 8-bit sum to a
nonzero value, yet `validate` fails with `InvalidSignature`, not
`InvalidChecksum`, because the flipped byte lies in the signature. -/
theorem checksum_flip_signature_counterexample :
    validateBuf tGood Signature.RSDT = .ok () ∧
    (0 : Nat) < (decodeSdtHeader tGood).length ∧
    Function.update tGood 0 83 0 % 256 ≠ tGood 0 % 256 ∧
    tableSum (Function.update tGood 0 83)
        (decodeSdtHeader (Function.update tGood 0 83)).length ≠ 0 ∧
    validateBuf (Function.update tGood 0 83) Signature.RSDT =
      .error (.SdtInvalidSignature Signature.RSDT) := by
  refine ⟨by decide, by decide, by decide, by decide, by decide⟩

/-- C2 (amended): with the signature matched and both OEM fields valid
UTF-8, `validate` fails with `InvalidChecksum` iff the wrapping 8-bit sum
of the first `length` bytes is nonzero. Consequently, flipping one byte
outside the `length` field of a validating table so that the 8-bit sum
becomes nonzero makes `validate` fail — with `InvalidChecksum` exactly
when the flipped buffer still passes the signature and OEM text
checks. -/
theorem validate_checksum_iff_flip :
    (∀ (h : SdtHeader) (rest : Nat → Nat) (sig : Signature),
      h.signature = sig → validUtf8 h.oem_id = true → validUtf8 h.oem_table_id = true →
      (h.validate rest sig = .error (.SdtInvalidChecksum sig) ↔ checksumSum h rest ≠ 0)) ∧
    (∀ (t : Nat → Nat) (sig : Signature) (j v : Nat),
      validateBuf t sig = .ok () →
      j < (decodeSdtHeader t).length →
      (j < 4 ∨ 8 ≤ j) →
      v % 256 ≠ t j % 256 →
      validateBuf (Function.update t j v) sig ≠ .ok () ∧
      ((decodeSdtHeader (Function.update t j v)).signature = sig →
        validUtf8 (decodeSdtHeader (Function.update t j v)).oem_id = true →
        validUtf8 (decodeSdtHeader (Function.update t j v)).oem_table_id = true →
        validateBuf (Function.update t j v) sig =
          .error (.SdtInvalidChecksum sig))) := by
  constructor
  · exact fun h rest sig hs ho ht => validate_eq_checksum_error_iff h rest sig hs ho ht
  · intro t sig j v hok hj hout hv
    have hsum0 : tableSum t (decodeSdtHeader t).length = 0 :=
      ((validateBuf_eq_ok_iff t sig).mp hok).2.2.2
    have hlen : (decodeSdtHeader (Function.update t j v)).length = (decodeSdtHeader t).length :=
      decode_length_update t j v hout
    have hsum1 :
        tableSum (Function.update t j v)
          (decodeSdtHeader (Function.update t j v)).length ≠ 0 := by
      rw [hlen]
      rw [tableSum_eq_mapSum_mod] at hsum0 ⊢
      have hup := mapSum_update t j v (decodeSdtHeader t).length hj
      intro hcontra
      have hv256 : v % 256 < 256 := Nat.mod_lt _ (by omega)
      have ht256 : t j % 256 < 256 := Nat.mod_lt _ (by omega)
      omega
    constructor
    · intro hok1
      exact hsum1 ((validateBuf_eq_ok_iff _ sig).mp hok1).2.2.2
    · intro hs1 ho1 ht1
      exact (validateBuf_checksum_error_iff _ sig hs1 ho1 ht1).mpr hsum1

/-- C2 witness: a header whose only fault is the checksum fails with
`InvalidChecksum`, and flipping the revision byte of the validating
buffer `tGood` (offset 8, outside the length field) makes `validate`
fail. -/
theorem validate_checksum_iff_flip_witness :
    hdrBadChk.validate (fun _ => 0) Signature.RSDT =
      .error (.SdtInvalidChecksum Signature.RSDT) ∧
    validateBuf (Function.update tGood 8 2) Signature.RSDT ≠ .ok () :=
  ⟨(validate_checksum_iff_flip.1 hdrBadChk (fun _ => 0) Signature.RSDT (by decide) (by decide)
      (by decide)).mpr (by decide),
   (validate_checksum_iff_flip.2 tGood Signature.RSDT 8 2 (by decide) (by decide) (by decide)
      (by decide)).1⟩

/-- C3 counterexample: a header whose signature matches and whose table
checksum is correct, yet `validate` fails (with `InvalidOemId`), because
its `oem_id` bytes are not valid UTF-8. -/
theorem validate_checksum_only_counterexample :
    hdrBadOem.signature = Signature.RSDT ∧
    checksumSum hdrBadOem (fun _ => 0) = 0 ∧
    hdrBadOem.validate (fun _ => 0) Signature.RSDT ≠ .ok () ∧
    hdrBadOem.validate (fun _ => 0) Signature.RSDT =
      .error (.SdtInvalidOemId Signature.RSDT) := by
  refine ⟨by decide, by decide, by decide, by decide⟩

/-- C3 (amended): a header with a matching signature, a correct table
checksum, and `oem_id`/`oem_table_id` bytes that are valid UTF-8
validates successfully. -/
theorem validate_ok_of_valid_checks (h : SdtHeader) (rest : Nat → Nat) (sig : Signature)
    (hs : h.signature = sig) (hsum : checksumSum h rest = 0)
    (ho : validUtf8 h.oem_id = true) (ht : validUtf8 h.oem_table_id = true) :
    h.validate rest sig = .ok () :=
  (validate_eq_ok_iff h rest sig).mpr ⟨hs, ho, ht, hsum⟩

/-- C3 witness: the concrete header `hdrOk` validates. -/
theorem validate_ok_of_valid_checks_witness :
    hdrOk.validate (fun _ => 0) Signature.RSDT = .ok () :=
  validate_ok_of_valid_checks hdrOk (fun _ => 0) Signature.RSDT (by decide) (by decide)
    (by decide) (by decide)

/-- C10: `validate` does not enforce `length >= size_of(SdtHeader)`: a
header with matching signature, valid-UTF-8 OEM fields and `length = 0`
validates, since the checksum loop sums zero bytes. -/
theorem validate_ignores_short_length (h : SdtHeader) (rest : Nat → Nat) (sig : Signature)
    (hs : h.signature = sig) (ho : validUtf8 h.oem_id = true)
    (ht : validUtf8 h.oem_table_id = true) (hl : h.length = 0) :
    h.validate rest sig = .ok () := by
  apply (validate_eq_ok_iff h rest sig).mpr
  refine ⟨hs, ho, ht, ?_⟩
  simp [checksumSum, hl]

/-- C10 witness: the concrete zero-length header validates. -/
theorem validate_ignores_short_length_witness :
    hdrLen0.validate (fun _ => 0) Signature.RSDT = .ok () :=
  validate_ignores_short_length hdrLen0 (fun _ => 0) Signature.RSDT (by decide) (by decide)
    (by decide) (by decide)

/-- C4: every call to `peek_at_sdt_header` maps exactly 36 bytes
(`size_of::<SdtHeader>()`) at the given physical address and releases
that mapping before returning: the active-mapping set is unchanged
across the call, and the recorded trace shows the map immediately
followed by its unmap. -/
theorem peek_releases_mapping (s : HandlerState) (physical_address : Nat) :
    (peek_at_sdt_header s physical_address).2.activeMappings = s.activeMappings ∧
    (peek_at_sdt_header s physical_address).2.trace =
      s.trace ++ [.map physical_address 36, .unmap physical_address 36] := by
  constructor
  · simp [peek_at_sdt_header, map_physical_region, unmap_physical_region,
      List.erase_cons_head]
  · simp [peek_at_sdt_header, map_physical_region, unmap_physical_region]

/-- C5: `ExtendedField::access` returns the stored value exactly when
the revision is at least `MIN_REVISION` and the empty result otherwise;
in particular (for a representable `MIN_REVISION - 1`) the accessor is
empty one revision below the threshold and full at and above it. -/
theorem extended_field_access_spec {α : Type} {MIN_REVISION : Nat}
    (f : ExtendedField α MIN_REVISION) (revision : Nat) :
    (MIN_REVISION ≤ revision → f.access revision = some f.val) ∧
    (revision < MIN_REVISION → f.access revision = none) ∧
    (1 ≤ MIN_REVISION → f.access (MIN_REVISION - 1) = none) ∧
    f.access MIN_REVISION = some f.val ∧
    f.access (MIN_REVISION + 1) = some f.val := by
  unfold ExtendedField.access
  exact ⟨fun hle => if_pos hle, fun hlt => if_neg (by omega), fun h1 => if_neg (by omega),
    if_pos (by omega), if_pos (by omega)⟩

/-- C5 witness: a field with `MIN_REVISION = 2` holding 7 is empty at
revision 1 and full at revisions 2, 3 and 5. -/
theorem extended_field_access_spec_witness :
    (ExtendedField.mk 7 : ExtendedField Nat 2).access 5 = some 7 ∧
    (ExtendedField.mk 7 : ExtendedField Nat 2).access 1 = none ∧
    (ExtendedField.mk 7 : ExtendedField Nat 2).access 2 = some 7 ∧
    (ExtendedField.mk 7 : ExtendedField Nat 2).access 3 = some 7 :=
  ⟨(extended_field_access_spec (ExtendedField.mk 7 : ExtendedField Nat 2) 5).1 (by omega),
   (extended_field_access_spec (ExtendedField.mk 7 : ExtendedField Nat 2) 1).2.2.1 (by omega),
   (extended_field_access_spec (ExtendedField.mk 7 : ExtendedField Nat 2) 2).2.2.2.1,
   (extended_field_access_spec (ExtendedField.mk 7 : ExtendedField Nat 2) 2).2.2.2.2⟩

/-- C6: `peek_at_sdt_header` returns a header byte-identical to the
first 36 bytes of memory at the given physical address, for every memory
content whatsoever — it validates nothing. -/
theorem peek_returns_raw_header_bytes (s : HandlerState) (physical_address : Nat) :
    ((peek_at_sdt_header s physical_address).1).bytes =
      (List.range 36).map (fun i => s.mem (physical_address + i) % 256) := by
  show (decodeSdtHeader (fun i => s.mem (physical_address + i))).bytes = _
  exact bytes_decode _

/-- C7: equality of signatures is exact 4-byte equality, the derived
comparison is byte-wise lexicographic, a signature built from the bytes
of `"FACP"` is the FADT constant, and `"RSDT"` orders strictly before
`"SSDT"`. -/
theorem signature_eq_and_ord_lex :
    (∀ a b : Signature, a = b ↔ a.bytes = b.bytes) ∧
    (∀ a b : Signature, a.cmp b = lexCompareBytes a.bytes b.bytes) ∧
    Signature.mk 70 65 67 80 = Signature.FADT ∧
    Signature.cmp Signature.RSDT Signature.SSDT = .lt := by
  refine ⟨?_, ?_, by decide, by decide⟩
  · intro a b
    cases a
    cases b
    simp [Signature.bytes]
  · intro a b
    cases a
    cases b
    simp [Signature.cmp, Signature.bytes, lexCompareBytes, ordering_then_eq]

/-- C7 witness: a signature built from the bytes of `"RSDT"` equals the
RSDT constant, via the byte-equality characterisation. -/
theorem signature_eq_and_ord_lex_witness :
    Signature.mk 82 83 68 84 = Signature.RSDT :=
  (signature_eq_and_ord_lex.1 (Signature.mk 82 83 68 84) Signature.RSDT).mpr (by decide)

/-- C8: once `validate` has succeeded, the `oem_id` and `oem_table_id`
accessors return the raw byte ranges as text and the `unwrap` panic
branch is unreachable. -/
theorem oem_text_total_after_validate (h : SdtHeader) (rest : Nat → Nat) (sig : Signature)
    (hv : h.validate rest sig = .ok ()) :
    h.oem_id_text = some h.oem_id ∧ h.oem_table_id_text = some h.oem_table_id := by
  obtain ⟨-, ho, ht, -⟩ := (validate_eq_ok_iff h rest sig).mp hv
  exact ⟨by simp [SdtHeader.oem_id_text, ho], by simp [SdtHeader.oem_table_id_text, ht]⟩

/-- C8 witness: the validated header `hdrOk` renders both OEM fields. -/
theorem oem_text_total_after_validate_witness :
    hdrOk.oem_id_text = some hdrOk.oem_id ∧
    hdrOk.oem_table_id_text = some hdrOk.oem_table_id :=
  oem_text_total_after_validate hdrOk (fun _ => 0) Signature.RSDT (by decide)

/-- C9: `Signature::as_str` performs no defensive check: on valid UTF-8
bytes it returns exactly those bytes as text, and on the all-0xFF
signature it panics (modelled by `none`) instead of returning an error
value. -/
theorem as_str_no_defensive_check :
    (∀ s : Signature, validUtf8 s.bytes = true → s.as_str = some s.bytes) ∧
    (Signature.mk 255 255 255 255).as_str = none := by
  constructor
  · intro s hs
    simp [Signature.as_str, hs]
  · decide

/-- C9 witness: the RSDT constant renders to its own four bytes. -/
theorem as_str_no_defensive_check_witness :
    Signature.RSDT.as_str = some Signature.RSDT.bytes :=
  as_str_no_defensive_check.1 Signature.RSDT (by decide)
